import Mathlib

/-
  Verification development for the GitZip deployer repository.

  The repository is a browser wizard that publishes an uploaded archive as a
  new GitHub repository.  The subsystems modelled here are:
    - src/services/zipService.ts     (ZipService.processFile)
    - src/services/githubService.ts  (GitHubService.verifyToken,
      checkRepoExists, createRepository, uploadFiles)
    - src/services/geminiService.ts  (GeminiService.generateRepoDetails)
    - src/App.tsx                    (handleVerifyAndConnect, handleAiGenerate,
      handleDeploy and the inline README synthesis)

  Network endpoints are modelled by an environment record of functions
  returning Except values; every modelled operation also returns the ordered
  trace of API calls, progress callbacks and log lines it produced, so that
  temporal claims (which call happened, and in which order) are statable.
  The only concurrent construct in the source, the Promise.all over one
  batch of blob uploads, is modelled by issuing the calls of the batch
  sequentially in input order, which is the order in which the source
  issues them (the mapped closures run synchronously up to their first
  await).  The within-batch completion order, which in the source
  determines the order in which tree entries are pushed, is left
  unspecified by the program; the model fixes one linearization of it, so
  statements about the collected tree-entry list are made only up to
  permutation, never about its order.
-/

deriving instance DecidableEq for Except

namespace GitZip

/-- JavaScript inspired helper: the pattern (s or-else d) for strings, where
the empty string counts as falsy, as in the many (x.message or default)
expressions of the source. -/
def jsDefault (s d : String) : String := if s = "" then d else s

/-- First-occurrence replacement on character lists: if the pattern occurs,
its first occurrence is replaced, otherwise the list is unchanged. -/
def replaceFirstAux (pat repl : List Char) : List Char → List Char
  | [] => []
  | x :: xs =>
      if pat.isPrefixOf (x :: xs) then repl ++ (x :: xs).drop pat.length
      else x :: replaceFirstAux pat repl xs

/-- First-occurrence string replacement, the semantics of the JavaScript
String.replace with a string pattern, used at githubService.ts line 157 as
refName.replace applied to the literal pattern and the empty replacement. -/
def replaceFirst (s pat repl : String) : String :=
  String.mk (replaceFirstAux pat.data repl.data s.data)

/-- Split a character list at every comma, the semantics of the JavaScript
String.split with a comma separator; the empty input yields one empty
group, as in JavaScript. -/
def splitOnComma : List Char → List (List Char)
  | [] => [[]]
  | c :: rest =>
      if c = ',' then [] :: splitOnComma rest
      else
        match splitOnComma rest with
        | [] => [[c]]
        | g :: gs => (c :: g) :: gs

/-- Trim of leading and trailing whitespace, the semantics of the
JavaScript String.trim on the ASCII range. -/
def jsTrim (s : String) : String :=
  String.mk (((s.data.dropWhile Char.isWhitespace).reverse.dropWhile
    Char.isWhitespace).reverse)

/-- Lowercasing of a string, the semantics of the JavaScript
String.toLowerCase on the ASCII range. -/
def jsToLower (s : String) : String := String.mk (s.data.map Char.toLower)

/-- Suffix test on strings, the semantics of the JavaScript
String.endsWith. -/
def jsEndsWith (s suffix : String) : Bool := suffix.data.isSuffixOf s.data

/-- The standard base64 alphabet. -/
def base64Alphabet : List Char :=
  "ABCDEFGHIJKLMNOPQRSTUVWXYZabcdefghijklmnopqrstuvwxyz0123456789+/".data

/-- Character of the base64 alphabet at a 6-bit index. -/
def base64Char (n : Nat) : Char := base64Alphabet.getD n 'A'

/-- Base64 encoding of a byte list (bytes as Nat below 256), with padding:
the behaviour of the browser function btoa on a byte string, used by
zipService.ts line 37 and App.tsx line 181. -/
def base64Encode : List Nat → String
  | [] => ""
  | [a] =>
      String.mk [base64Char (a >>> 2), base64Char ((a &&& 3) <<< 4), '=', '=']
  | [a, b] =>
      String.mk [base64Char (a >>> 2), base64Char (((a &&& 3) <<< 4) ||| (b >>> 4)),
                 base64Char ((b &&& 15) <<< 2), '=']
  | a :: b :: c :: rest =>
      String.mk [base64Char (a >>> 2), base64Char (((a &&& 3) <<< 4) ||| (b >>> 4)),
                 base64Char (((b &&& 15) <<< 2) ||| (c >>> 6)), base64Char (c &&& 63)]
      ++ base64Encode rest

/-- UTF-8 encoding of one character, as a list of bytes. -/
def utf8EncodeChar (c : Char) : List Nat :=
  let n := c.toNat
  if n < 128 then [n]
  else if n < 2048 then [192 ||| (n >>> 6), 128 ||| (n &&& 63)]
  else if n < 65536 then
    [224 ||| (n >>> 12), 128 ||| ((n >>> 6) &&& 63), 128 ||| (n &&& 63)]
  else
    [240 ||| (n >>> 18), 128 ||| ((n >>> 12) &&& 63),
     128 ||| ((n >>> 6) &&& 63), 128 ||| (n &&& 63)]

/-- UTF-8 byte sequence of a string.  Together with base64Encode this models
the btoa-unescape-encodeURIComponent composition of App.tsx line 181, which
is exactly base64 over the UTF-8 bytes of the string. -/
def utf8Bytes (s : String) : List Nat := s.data.flatMap utf8EncodeChar

/-- src/types.ts: FileNode, one file to publish; content is the base64
encoded payload. -/
structure FileNode where
  path : String
  content : String
  isBinary : Bool
  size : Nat
deriving Repr, DecidableEq

/-- src/types.ts: RepoConfig, the desired new repository. -/
structure RepoConfig where
  name : String
  description : String
  isPrivate : Bool
  includeReadme : Bool
  readmeContent : Option String
deriving Repr, DecidableEq

/-- src/types.ts: UserProfile, the authenticated identity. -/
structure UserProfile where
  login : String
  avatar_url : String
  name : String
deriving Repr, DecidableEq

/-- src/types.ts: TokenVerification, the result of verifyToken. -/
structure TokenVerification where
  isValid : Bool
  scopes : List String
  user : Option UserProfile
  error : Option String
deriving Repr, DecidableEq

/-- src/types.ts: the wizard steps. -/
inductive Step where
  | AUTH
  | UPLOAD
  | CONFIG
  | DEPLOY
  | SUCCESS
deriving Repr, DecidableEq

/-- One entry of the tree payload built at githubService.ts lines 118-123. -/
structure TreeItem where
  path : String
  mode : String
  type : String
  sha : String
deriving Repr, DecidableEq

/-- Result of the get-ref endpoint: the full ref name and the commit sha of
the object it points at. -/
structure RefData where
  ref : String
  sha : String
deriving Repr, DecidableEq

/-- An error of the hosting API, with the optional HTTP status consulted by
checkRepoExists and a message. -/
structure ApiError where
  status : Option Nat
  message : String
deriving Repr, DecidableEq

/-- One observable event of a publish attempt: an API call, a progress
callback from uploadFiles, or an addLog line of App.tsx. -/
inductive Event where
  | reposGet (owner repo : String)
  | createRepoCall (config : RepoConfig)
  | getRefCall (r : String)
  | getCommitCall (sha : String)
  | createBlobCall (content : String)
  | createTreeCall (baseTree : String) (items : List TreeItem)
  | createCommitCall (message tree : String) (parents : List String)
  | updateRefCall (r sha : String)
  | progressMsg (m : String)
  | logMsg (m : String)
deriving Repr, DecidableEq

/-- The hosting API consumed by GitHubService, as an environment of
responses: each field is one endpoint. -/
structure GitHubEnv where
  reposGet : String → String → Except ApiError Unit
  createRepo : RepoConfig → Except String String
  getRef : String → Except String RefData
  getCommit : String → Except String String
  createBlob : String → Except String String
  createTree : String → List TreeItem → Except String String
  createCommit : String → String → List String → Except String String
  updateRef : String → String → Except String Unit

/-- The response of the identity endpoint consumed by verifyToken: login,
avatar, a possibly null display name, and the possibly absent
x-oauth-scopes header. -/
structure IdentityResponse where
  login : String
  avatar_url : String
  name : Option String
  scopesHeader : Option String
deriving Repr, DecidableEq

/-- Is an event a blob-creation call. -/
def isBlobCall : Event → Bool
  | Event.createBlobCall _ => true
  | _ => false

/-- Is an event a tree-creation call. -/
def isTreeCall : Event → Bool
  | Event.createTreeCall _ _ => true
  | _ => false

/-- Is an event one of the five mutating calls of the publish pipeline:
repository creation, blob creation, tree creation, commit creation or ref
update. -/
def isMutation : Event → Bool
  | Event.createRepoCall _ => true
  | Event.createBlobCall _ => true
  | Event.createTreeCall _ _ => true
  | Event.createCommitCall _ _ _ => true
  | Event.updateRefCall _ _ => true
  | _ => false

/-- Scanning check: once a tree-creation call has occurred in the trace, no
blob-creation call occurs at or after it. -/
def noBlobFromTree : List Event → Bool
  | [] => true
  | e :: rest =>
      if isTreeCall e then rest.all (fun x => !isBlobCall x)
      else noBlobFromTree rest

/-- githubService.ts lines 11-40: GitHubService.verifyToken.  The identity
endpoint response (or its failure) is the argument; the function never
fails, it returns a TokenVerification either way. -/
def verifyToken (resp : Except String IdentityResponse) : TokenVerification :=
  match resp with
  | Except.error e =>
      { isValid := false, scopes := [], user := none,
        error := some (jsDefault e "Invalid Token") }
  | Except.ok r =>
      let scopesHeader := r.scopesHeader.getD ""
      let scopes := (splitOnComma scopesHeader.data).map (fun g => jsTrim (String.mk g))
      { isValid := true, scopes := scopes,
        user := some { login := r.login, avatar_url := r.avatar_url,
                       name := jsDefault (r.name.getD "") r.login },
        error := none }

/-- githubService.ts lines 42-51: GitHubService.checkRepoExists.  A success
of the repos-get endpoint means the repository exists; a 404 error means it
does not; any other error is rethrown. -/
def checkRepoExists (env : GitHubEnv) (owner repo : String) :
    List Event × Except String Bool :=
  ([Event.reposGet owner repo],
   match env.reposGet owner repo with
   | Except.ok _ => Except.ok true
   | Except.error e =>
       if e.status = some 404 then Except.ok false else Except.error e.message)

/-- githubService.ts lines 53-65: GitHubService.createRepository, returning
the html url of the created repository. -/
def createRepository (env : GitHubEnv) (config : RepoConfig) :
    List Event × Except String String :=
  ([Event.createRepoCall config], env.createRepo config)

/-- githubService.ts lines 72-84: resolve the head reference, trying
heads/main and falling back to heads/master on failure. -/
def resolveHead (env : GitHubEnv) : List Event × Except String RefData :=
  match env.getRef "heads/main" with
  | Except.ok d => ([Event.getRefCall "heads/main"], Except.ok d)
  | Except.error _ =>
      match env.getRef "heads/master" with
      | Except.ok d =>
          ([Event.getRefCall "heads/main", Event.getRefCall "heads/master"],
           Except.ok d)
      | Except.error e =>
          ([Event.getRefCall "heads/main", Event.getRefCall "heads/master"],
           Except.error e)

/-- githubService.ts lines 107-128: the Promise.all body over one batch of
files.  A file with empty content but positive size is skipped (line 109);
otherwise a blob is created and a tree entry with mode 100644 and type blob
is collected; a blob failure is rewrapped as a failure naming the path.
The entries are collected here in issuance order, which is one
linearization of the within-batch completion order that the source leaves
unspecified; properties of the entry list are therefore only claimed up to
permutation. -/
def uploadChunk (env : GitHubEnv) : List FileNode →
    List Event × Except String (List TreeItem)
  | [] => ([], Except.ok [])
  | f :: rest =>
      if f.content = "" ∧ 0 < f.size then uploadChunk env rest
      else
        match env.createBlob f.content with
        | Except.error _ =>
            ([Event.createBlobCall f.content],
             Except.error ("Failed to upload " ++ f.path))
        | Except.ok sha =>
            match uploadChunk env rest with
            | (evs, Except.ok items) =>
                (Event.createBlobCall f.content :: evs,
                 Except.ok ({ path := f.path, mode := "100644",
                              type := "blob", sha := sha } :: items))
            | (evs, Except.error e) =>
                (Event.createBlobCall f.content :: evs, Except.error e)

/-- githubService.ts line 105: the loop header slices the file list into
consecutive chunks of the fixed chunk size 5. -/
def chunks5 : List FileNode → List (List FileNode)
  | [] => []
  | a :: b :: c :: d :: e :: rest => [a, b, c, d, e] :: chunks5 rest
  | l => [l]

/-- githubService.ts lines 105-131: the batched blob-upload loop.  One batch
is awaited at a time; after a batch resolves the processed counter advances
by the chunk length and one progress message is emitted; a batch failure
stops the loop before that progress message. -/
def uploadBatches (env : GitHubEnv) (total : Nat) :
    Nat → List (List FileNode) → List Event × Except String (List TreeItem)
  | _, [] => ([], Except.ok [])
  | processed, c :: cs =>
      match uploadChunk env c with
      | (evs, Except.error e) => (evs, Except.error e)
      | (evs, Except.ok items) =>
          let pe := Event.progressMsg
            ("Uploaded " ++ toString (processed + c.length) ++ "/" ++ toString total ++ " blobs...")
          match uploadBatches env total (processed + c.length) cs with
          | (evs2, Except.ok items2) => (evs ++ pe :: evs2, Except.ok (items ++ items2))
          | (evs2, Except.error e2) => (evs ++ pe :: evs2, Except.error e2)

/-- githubService.ts lines 67-162: GitHubService.uploadFiles.  Resolve the
head ref (with master fallback), read the base tree of its commit, upload
all blobs in batches of 5, create the tree on the base tree, create the
commit with the fixed message and the old head as parent, and force the
resolved ref to the new commit; returns the browsable repository url. -/
def uploadFiles (env : GitHubEnv) (owner repo : String) (files : List FileNode) :
    List Event × Except String String :=
  let p1 := Event.progressMsg "Getting latest commit SHA..."
  let h := resolveHead env
  match h.2 with
  | Except.error e => (p1 :: h.1, Except.error e)
  | Except.ok refData =>
      let latestCommitSha := refData.sha
      let refName := refData.ref
      let p2 := Event.progressMsg "Getting base tree..."
      let preCommit := p1 :: h.1 ++ [p2, Event.getCommitCall latestCommitSha]
      match env.getCommit latestCommitSha with
      | Except.error e => (preCommit, Except.error e)
      | Except.ok baseTreeSha =>
          let b := uploadBatches env files.length 0 (chunks5 files)
          let preTree := preCommit ++ b.1
          match b.2 with
          | Except.error e => (preTree, Except.error e)
          | Except.ok treeItems =>
              let p3 := Event.progressMsg "Creating new file tree..."
              let treeEvs := preTree ++ [p3, Event.createTreeCall baseTreeSha treeItems]
              match env.createTree baseTreeSha treeItems with
              | Except.error e => (treeEvs, Except.error e)
              | Except.ok newTreeSha =>
                  let p4 := Event.progressMsg "Creating commit..."
                  let commitEvs := treeEvs ++
                    [p4, Event.createCommitCall "Deploy from GitZip AI Deployer"
                           newTreeSha [latestCommitSha]]
                  match env.createCommit "Deploy from GitZip AI Deployer"
                          newTreeSha [latestCommitSha] with
                  | Except.error e => (commitEvs, Except.error e)
                  | Except.ok newCommitSha =>
                      let p5 := Event.progressMsg "Updating repository reference..."
                      let target := replaceFirst refName "refs/" ""
                      let refEvs := commitEvs ++
                        [p5, Event.updateRefCall target newCommitSha]
                      match env.updateRef target newCommitSha with
                      | Except.error e => (refEvs, Except.error e)
                      | Except.ok _ =>
                          (refEvs,
                           Except.ok ("https://github.com/" ++ owner ++ "/" ++ repo))

/-- The three optional string fields of the JSON object parsed at
geminiService.ts lines 49-54. -/
structure SuggestionJson where
  name : Option String
  description : Option String
  readmeContent : Option String
deriving Repr, DecidableEq

/-- geminiService.ts lines 12-59: GeminiService.generateRepoDetails.  The
completion call either fails, returns a null text, or returns a text that is
parsed; a null text raises No response from AI; every failure is rethrown to
the caller (the catch block only logs). -/
def generateRepoDetails (raw : Except String (Option String))
    (parse : String → Except String SuggestionJson) :
    Except String SuggestionJson :=
  match raw with
  | Except.error e => Except.error e
  | Except.ok none => Except.error "No response from AI"
  | Except.ok (some t) => parse t

/-- The outcome of the AUTH step handler: the wizard step afterwards, the
stored user, and the inline error. -/
structure VerifyOutcome where
  step : Step
  user : Option UserProfile
  error : Option String
deriving Repr, DecidableEq

/-- The catch block of App.tsx lines 107-111: the error text (with the
Connection Failed default for an empty message) is shown and the wizard
stays on AUTH. -/
def authCatch (m : String) : VerifyOutcome :=
  { step := Step.AUTH, user := none, error := some (jsDefault m "Connection Failed") }

/-- App.tsx lines 87-112: handleVerifyAndConnect.  An invalid verification
rethrows its error (with the Token Invalid default); a valid one lacking
both the repo and the public_repo scope rethrows the missing-scope message;
otherwise the user is stored and the wizard advances to UPLOAD. -/
def handleVerifyAndConnect (resp : Except String IdentityResponse) :
    VerifyOutcome :=
  let v := verifyToken resp
  if v.isValid = true then
    if v.scopes.contains "repo" = false ∧ v.scopes.contains "public_repo" = false then
      authCatch
        "Token missing 'repo' scope. Please create a new token with full repo permissions."
    else { step := Step.UPLOAD, user := v.user, error := none }
  else authCatch (jsDefault (v.error.getD "") "Token Invalid")

/-- The configuration-step state touched by handleAiGenerate: the repo
configuration, the readme editor mode, the wizard step and the inline
error. -/
structure ConfigState where
  config : RepoConfig
  readmeMode : String
  step : Step
  error : Option String
deriving Repr, DecidableEq

/-- JavaScript or-else over an optional suggestion field against a string
default, where undefined and the empty string are falsy. -/
def jsOr (v : Option String) (d : String) : String :=
  match v with
  | none => d
  | some s => jsDefault s d

/-- JavaScript or-else over an optional suggestion field against an optional
previous value, where undefined and the empty string are falsy. -/
def jsOrOpt (v : Option String) (d : Option String) : Option String :=
  match v with
  | none => d
  | some s => if s = "" then d else some s

/-- App.tsx lines 142-159: handleAiGenerate.  On a failed suggestion call
only the inline error is set; on success the three suggested fields are
merged into the configuration (each falling back to the previous value when
falsy) and the readme editor switches to preview.  The wizard step is never
touched by this handler. -/
def handleAiGenerate (result : Except String SuggestionJson) (st : ConfigState) :
    ConfigState :=
  match result with
  | Except.error _ =>
      { st with error := some "AI Generation failed. Check API Key configuration." }
  | Except.ok s =>
      { st with
        config := { st.config with
          name := jsOr s.name st.config.name,
          description := jsOr s.description st.config.description,
          readmeContent := jsOrOpt s.readmeContent st.config.readmeContent },
        readmeMode := "preview" }

/-- App.tsx lines 181-187: the synthesized README FileNode, base64 of the
UTF-8 bytes of the requested readme text, with the base64 length as size. -/
def readmeRecord (config : RepoConfig) : FileNode :=
  let readmeB64 := base64Encode (utf8Bytes (config.readmeContent.getD ""))
  { path := "README.md", content := readmeB64, isBinary := false,
    size := readmeB64.length }

/-- App.tsx lines 178-188: the README synthesis inside handleDeploy.  When
README inclusion is requested, every record whose lowercased path is
readme.md is filtered out and the synthesized record is appended. -/
def synthesizeReadme (config : RepoConfig) (files : List FileNode) :
    List FileNode :=
  if config.includeReadme then
    (files.filter (fun f => !(jsToLower f.path == "readme.md"))) ++ [readmeRecord config]
  else files

/-- The outcome of one deployment attempt: the full event trace (API calls,
progress callbacks and log lines), the wizard step afterwards, the stored
deploy url and the inline error. -/
structure DeployResult where
  trace : List Event
  step : Step
  deployUrl : Option String
  error : Option String
deriving Repr, DecidableEq

/-- App.tsx lines 161-204: handleDeploy.  Existence check first (a collision
aborts with no further call), then repository creation, README synthesis,
and uploadFiles; any thrown error is logged (with the Deployment Failed
default for an empty message) and leaves the wizard on DEPLOY; success
stores the url and advances to SUCCESS. -/
def handleDeploy (env : GitHubEnv) (user : UserProfile) (config : RepoConfig)
    (files : List FileNode) : DeployResult :=
  let log0 := Event.logMsg ("Initializing deployment for " ++ config.name ++ "...")
  let c := checkRepoExists env user.login config.name
  match c.2 with
  | Except.error e =>
      ⟨log0 :: c.1 ++ [Event.logMsg (jsDefault e "Deployment Failed")],
       Step.DEPLOY, none, some e⟩
  | Except.ok true =>
      let msg := "Repository \"" ++ config.name ++ "\" already exists!"
      ⟨log0 :: c.1 ++ [Event.logMsg msg], Step.DEPLOY, none, some msg⟩
  | Except.ok false =>
      let log1 := Event.logMsg "Creating repository..."
      let r := createRepository env config
      match r.2 with
      | Except.error e =>
          ⟨log0 :: c.1 ++ log1 :: r.1 ++ [Event.logMsg (jsDefault e "Deployment Failed")],
           Step.DEPLOY, none, some e⟩
      | Except.ok htmlUrl =>
          let log2 := Event.logMsg ("Repository created: " ++ htmlUrl)
          let filesToUpload := synthesizeReadme config files
          let log3 := Event.logMsg
            ("Preparing to upload " ++ toString filesToUpload.length ++ " files...")
          let u := uploadFiles env user.login config.name filesToUpload
          let pre := log0 :: c.1 ++ log1 :: r.1 ++ log2 :: log3 :: u.1
          match u.2 with
          | Except.error e =>
              ⟨pre ++ [Event.logMsg (jsDefault e "Deployment Failed")],
               Step.DEPLOY, none, some e⟩
          | Except.ok url =>
              ⟨pre ++ [Event.logMsg "Deployment Successful!"],
               Step.SUCCESS, some url, none⟩

/-- An uploaded browser File: its name and its raw bytes. -/
structure JsFile where
  name : String
  bytes : List Nat
deriving Repr, DecidableEq

/-- One entry of a loaded zip archive as exposed by the archive library:
its name, whether it is a directory, and its content already encoded as
base64 (the entry.async base64 read). -/
structure ZipEntry where
  name : String
  dir : Bool
  contentB64 : String
deriving Repr, DecidableEq

/-- zipService.ts lines 6-48: ZipService.processFile.  A payload whose name
ends in .zip is opened by the archive library (the unzip argument) and every
non-directory entry becomes a FileNode whose size is the length of its
base64 content; any other payload is emitted as a single FileNode carrying
the base64 of its own bytes and its byte count as size. -/
def processFile (unzip : List Nat → List ZipEntry) (f : JsFile) : List FileNode :=
  if jsEndsWith f.name ".zip" then
    ((unzip f.bytes).filter (fun e => e.dir = false)).map
      (fun e => { path := e.name, content := e.contentB64, isBinary := true,
                  size := e.contentB64.length })
  else
    [{ path := f.name, content := base64Encode f.bytes, isBinary := true,
       size := f.bytes.length }]

/-- Specification-side helper: the tree entry the upload phase is expected
to collect for one file, given the blob identifier function of the
environment. -/
def mkTreeItem (g : String → String) (f : FileNode) : TreeItem :=
  { path := f.path, mode := "100644", type := "blob", sha := g f.content }

/-- Specification-side helper: the expected trace of the batched upload
loop when every blob succeeds, i.e. the blob calls of each batch in input
order followed by that batch's progress message. -/
def batchTrace (total : Nat) : Nat → List (List FileNode) → List Event
  | _, [] => []
  | processed, c :: cs =>
      c.map (fun f => Event.createBlobCall f.content)
      ++ Event.progressMsg
           ("Uploaded " ++ toString (processed + c.length) ++ "/" ++ toString total ++ " blobs...")
      :: batchTrace total (processed + c.length) cs

/-- A fully succeeding environment used as a concrete witness input: the
existence check reports 404 (repository absent) and every git endpoint
succeeds with a deterministic value. -/
def okEnv : GitHubEnv where
  reposGet := fun _ _ => Except.error { status := some 404, message := "Not Found" }
  createRepo := fun config => Except.ok ("https://github.com/u/" ++ config.name)
  getRef := fun r => Except.ok { ref := "refs/" ++ r, sha := "c0" }
  getCommit := fun _ => Except.ok "t0"
  createBlob := fun content => Except.ok ("b-" ++ content)
  createTree := fun _ _ => Except.ok "t1"
  createCommit := fun _ _ _ => Except.ok "c1"
  updateRef := fun _ _ => Except.ok ()

/-- A witness environment whose existence check reports the repository as
already present. -/
def existsEnv : GitHubEnv :=
  { okEnv with reposGet := fun _ _ => Except.ok () }

/-- A witness environment where heads/main does not resolve but heads/master
does, with the full master ref name the API would return. -/
def fallbackEnv : GitHubEnv :=
  { okEnv with getRef := fun r =>
      if r = "heads/master" then Except.ok { ref := "refs/heads/master", sha := "c0" }
      else Except.error "Not Found" }

/-- The blob identifier function of okEnv and fallbackEnv. -/
def gOk (content : String) : String := "b-" ++ content

/-- A concrete twelve-record file list used as a witness input. -/
def files12 : List FileNode :=
  (List.range 12).map (fun i => { path := "f" ++ toString i ++ ".txt",
                                  content := "x" ++ toString i,
                                  isBinary := true, size := 2 })

/-- A concrete record with empty content and positive size, the shape that
the upload phase skips. -/
def ghostFile : FileNode := { path := "ghost.bin", content := "", isBinary := true, size := 7 }

/-- A concrete record list with two files whose paths case-insensitively
equal README.md. -/
def twoReadmes : List FileNode :=
  [{ path := "README.md", content := "a", isBinary := true, size := 1 },
   { path := "readme.md", content := "b", isBinary := true, size := 1 }]

/-- A concrete configuration requesting README inclusion. -/
def cfgReadme : RepoConfig :=
  { name := "proj", description := "d", isPrivate := false,
    includeReadme := true, readmeContent := some "hi" }

/-- A concrete configuration-step state used as a witness input. -/
def stConfig : ConfigState :=
  { config := { name := "old", description := "olddesc", isPrivate := false,
                includeReadme := true, readmeContent := some "oldreadme" },
    readmeMode := "edit", step := Step.CONFIG, error := none }

/-- A concrete user used as a witness input. -/
def userU : UserProfile := { login := "u", avatar_url := "a", name := "n" }

/-- A concrete identity response whose scope header carries neither repo nor
public_repo. -/
def rNoScope : IdentityResponse :=
  { login := "u", avatar_url := "a", name := none,
    scopesHeader := some "gist, read:user" }

/-- A concrete parse function that always fails, used as a witness input. -/
def parseStub (t : String) : Except String SuggestionJson := Except.error t

/-- A concrete archive library returning no entries, used as a witness
input. -/
def unzipNone : List Nat → List ZipEntry := fun _ => []

/-- A concrete archive library returning one entry, used as a witness
input. -/
def unzipOne : List Nat → List ZipEntry :=
  fun _ => [{ name := "inner.txt", dir := false, contentB64 := "QQ==" }]

/-- A concrete non-zip payload used as a witness input. -/
def rarFile : JsFile := { name := "photo.rar", bytes := [77, 90] }

/-- Filtering with a predicate after filtering with its negation yields the
empty list. -/
theorem filter_not_filter {α : Type} (p : α → Bool) (l : List α) :
    (l.filter (fun a => !(p a))).filter p = [] := by
  induction l with
  | nil => rfl
  | cons a t ih => cases h : p a <;> simp [List.filter_cons, h, ih]

/-- Filtering twice with the same predicate filters once. -/
theorem filter_twice {α : Type} (p : α → Bool) (l : List α) :
    (l.filter p).filter p = l.filter p := by
  induction l with
  | nil => rfl
  | cons a t ih => cases h : p a <;> simp [List.filter_cons, h, ih]

/-- Claim C8: the credential verifier is a total function of the identity
response, so it never raises past its boundary, and on any transport or
auth failure it returns the failure result with validity false, an empty
scope set, no identity, and a nonempty human-readable reason. -/
theorem verifyToken_failure_total (e : String) :
    verifyToken (Except.error e) =
      { isValid := false, scopes := [], user := none,
        error := some (jsDefault e "Invalid Token") } ∧
    ∃ m, (verifyToken (Except.error e)).error = some m ∧ m ≠ "" := by
  refine ⟨rfl, jsDefault e "Invalid Token", rfl, ?_⟩
  unfold jsDefault
  split
  · decide
  · assumption

/-- Claim C7: when the identity endpoint succeeded but the derived scope set
contains neither repo nor public_repo, the AUTH handler surfaces the
missing-scope error and the wizard stays on AUTH. -/
theorem missing_write_scope_fails (r : IdentityResponse)
    (h1 : (verifyToken (Except.ok r)).scopes.contains "repo" = false)
    (h2 : (verifyToken (Except.ok r)).scopes.contains "public_repo" = false) :
    handleVerifyAndConnect (Except.ok r) =
      { step := Step.AUTH, user := none,
        error := some "Token missing 'repo' scope. Please create a new token with full repo permissions." } := by
  have hv : (verifyToken (Except.ok r)).isValid = true := rfl
  unfold handleVerifyAndConnect
  rw [if_pos hv, if_pos ⟨h1, h2⟩]
  unfold authCatch
  rw [show jsDefault
      "Token missing 'repo' scope. Please create a new token with full repo permissions."
      "Connection Failed" =
      "Token missing 'repo' scope. Please create a new token with full repo permissions."
    from by decide]

/-- Witness for C7 at a concrete identity response whose scope header is
gist and read:user. -/
theorem missing_write_scope_fails_witness :
    handleVerifyAndConnect (Except.ok rNoScope) =
      { step := Step.AUTH, user := none,
        error := some "Token missing 'repo' scope. Please create a new token with full repo permissions." } :=
  missing_write_scope_fails rNoScope (by decide) (by decide)

/-- Claim C9: a failed suggestion call leaves every configuration field at
its pre-call value and the wizard on CONFIG, with only the inline error set;
only a successful call merges the suggested fields, each falling back to
the previous value when falsy. -/
theorem ai_merge_on_success_only (raw : Except String (Option String))
    (parse : String → Except String SuggestionJson)
    (st : ConfigState) (hstep : st.step = Step.CONFIG) :
    (∀ e, generateRepoDetails raw parse = Except.error e →
      (handleAiGenerate (generateRepoDetails raw parse) st).config = st.config ∧
      (handleAiGenerate (generateRepoDetails raw parse) st).step = Step.CONFIG ∧
      (handleAiGenerate (generateRepoDetails raw parse) st).error =
        some "AI Generation failed. Check API Key configuration.") ∧
    (∀ s, generateRepoDetails raw parse = Except.ok s →
      (handleAiGenerate (generateRepoDetails raw parse) st).config =
        { name := jsOr s.name st.config.name,
          description := jsOr s.description st.config.description,
          isPrivate := st.config.isPrivate,
          includeReadme := st.config.includeReadme,
          readmeContent := jsOrOpt s.readmeContent st.config.readmeContent } ∧
      (handleAiGenerate (generateRepoDetails raw parse) st).step = Step.CONFIG) := by
  constructor
  · intro e he
    rw [he]
    simp [handleAiGenerate, hstep]
  · intro s hs
    rw [hs]
    refine ⟨rfl, ?_⟩
    simp [handleAiGenerate, hstep]

/-- Witness for C9 at a concrete failing suggestion call and a concrete
configuration state. -/
theorem ai_merge_on_success_only_witness :
    (handleAiGenerate (generateRepoDetails (Except.error "boom") parseStub) stConfig).config =
      stConfig.config ∧
    (handleAiGenerate (generateRepoDetails (Except.error "boom") parseStub) stConfig).step =
      Step.CONFIG ∧
    (handleAiGenerate (generateRepoDetails (Except.error "boom") parseStub) stConfig).error =
      some "AI Generation failed. Check API Key configuration." :=
  (ai_merge_on_success_only (Except.error "boom") parseStub stConfig (by decide)).1
    "boom" (by decide)

/-- Claim C10: a payload whose name does not end in .zip is never opened as
a container: the decoder emits exactly one FileRecord carrying the payload
name, the base64 of its raw bytes, and its byte count, independently of the
archive library. -/
theorem nonzip_single_record (f : JsFile) (u1 u2 : List Nat → List ZipEntry)
    (h : jsEndsWith f.name ".zip" = false) :
    processFile u1 f =
      [{ path := f.name, content := base64Encode f.bytes, isBinary := true,
         size := f.bytes.length }] ∧
    processFile u1 f = processFile u2 f := by
  constructor <;> simp [processFile, h]

/-- Witness for C10 at a concrete rar payload and two different archive
libraries. -/
theorem nonzip_single_record_witness :
    processFile unzipNone rarFile =
      [{ path := "photo.rar", content := base64Encode rarFile.bytes,
         isBinary := true, size := 2 }] ∧
    processFile unzipNone rarFile = processFile unzipOne rarFile :=
  nonzip_single_record rarFile unzipNone unzipOne (by decide)

/-- Counterexample to claim C4 as stated: with two pre-existing records
whose paths case-insensitively equal README.md, the synthesis removes both
of them, not at most one. -/
theorem readme_synthesis_removes_two :
    synthesizeReadme cfgReadme twoReadmes = [readmeRecord cfgReadme] ∧
    twoReadmes.length = 2 ∧
    (twoReadmes.filter (fun f => jsToLower f.path == "readme.md")).length = 2 ∧
    readmeRecord cfgReadme ∉ twoReadmes := by
  decide

/-- Claim C4 (amended): when README inclusion is requested, the synthesis
removes every pre-existing record whose path case-insensitively equals
README.md, appends exactly one synthesized README.md record built from the
requested readme text, and leaves every other record unchanged in order. -/
theorem readme_synthesis_exact (config : RepoConfig) (files : List FileNode)
    (h : config.includeReadme = true) :
    (synthesizeReadme config files).filter (fun f => jsToLower f.path == "readme.md") =
      [readmeRecord config] ∧
    (synthesizeReadme config files).filter (fun f => !(jsToLower f.path == "readme.md")) =
      files.filter (fun f => !(jsToLower f.path == "readme.md")) ∧
    (synthesizeReadme config files).length =
      (files.filter (fun f => !(jsToLower f.path == "readme.md"))).length + 1 := by
  have hp : (jsToLower (readmeRecord config).path == "readme.md") = true := rfl
  unfold synthesizeReadme
  rw [if_pos h]
  refine ⟨?_, ?_, ?_⟩
  · rw [List.filter_append, filter_not_filter]
    simp [List.filter_cons, hp]
  · rw [List.filter_append, filter_twice]
    simp [List.filter_cons, hp]
  · simp

/-- Witness for the amended C4 at a concrete configuration and a concrete
record list containing two case-insensitive README matches. -/
theorem readme_synthesis_exact_witness :
    (synthesizeReadme cfgReadme twoReadmes).filter
        (fun f => jsToLower f.path == "readme.md") = [readmeRecord cfgReadme] ∧
    (synthesizeReadme cfgReadme twoReadmes).filter
        (fun f => !(jsToLower f.path == "readme.md")) =
      twoReadmes.filter (fun f => !(jsToLower f.path == "readme.md")) ∧
    (synthesizeReadme cfgReadme twoReadmes).length =
      (twoReadmes.filter (fun f => !(jsToLower f.path == "readme.md"))).length + 1 :=
  readme_synthesis_exact cfgReadme twoReadmes (by decide)

/-- Every trace event of one batch is a blob-creation call. -/
theorem uploadChunk_events (env : GitHubEnv) :
    ∀ (chunk : List FileNode) (e : Event), e ∈ (uploadChunk env chunk).1 →
      ∃ s, e = Event.createBlobCall s := by
  intro chunk
  induction chunk with
  | nil => intro e he; simp [uploadChunk] at he
  | cons f rest ih =>
      intro e he
      by_cases hf : f.content = "" ∧ 0 < f.size
      · rw [uploadChunk, if_pos hf] at he
        exact ih e he
      · rcases hcb : env.createBlob f.content with msg | sha
        · rw [uploadChunk, if_neg hf, hcb] at he
          simp at he
          exact ⟨f.content, he⟩
        · rcases hrec : uploadChunk env rest with ⟨evs, res⟩
          rcases res with err | items
          · rw [uploadChunk, if_neg hf, hcb, hrec] at he
            simp at he
            rcases he with he | he
            · exact ⟨f.content, he⟩
            · exact ih e (by rw [hrec]; exact he)
          · rw [uploadChunk, if_neg hf, hcb, hrec] at he
            simp at he
            rcases he with he | he
            · exact ⟨f.content, he⟩
            · exact ih e (by rw [hrec]; exact he)

/-- When one batch resolves successfully, every blob-creation call of its
trace succeeded against the environment. -/
theorem uploadChunk_blobs_ok (env : GitHubEnv) :
    ∀ (chunk : List FileNode) (items : List TreeItem),
      (uploadChunk env chunk).2 = Except.ok items →
      ∀ s, Event.createBlobCall s ∈ (uploadChunk env chunk).1 →
        ∃ b, env.createBlob s = Except.ok b := by
  intro chunk
  induction chunk with
  | nil => intro items _ s hs; simp [uploadChunk] at hs
  | cons f rest ih =>
      intro items hok s hs
      by_cases hf : f.content = "" ∧ 0 < f.size
      · rw [uploadChunk, if_pos hf] at hok hs
        exact ih items hok s hs
      · rcases hcb : env.createBlob f.content with msg | sha
        · rw [uploadChunk, if_neg hf, hcb] at hok
          simp at hok
        · rcases hrec : uploadChunk env rest with ⟨evs, res⟩
          rcases res with err | items1
          · rw [uploadChunk, if_neg hf, hcb, hrec] at hok
            simp at hok
          · rw [uploadChunk, if_neg hf, hcb, hrec] at hs
            simp at hs
            rcases hs with hs | hs
            · subst hs
              exact ⟨sha, hcb⟩
            · exact ih items1 (by rw [hrec]) s (by rw [hrec]; exact hs)

/-- Every trace event of the batched upload loop is a blob-creation call or
a progress message. -/
theorem uploadBatches_events (env : GitHubEnv) (total : Nat) :
    ∀ (cs : List (List FileNode)) (processed : Nat) (e : Event),
      e ∈ (uploadBatches env total processed cs).1 →
      (∃ s, e = Event.createBlobCall s) ∨ (∃ m, e = Event.progressMsg m) := by
  intro cs
  induction cs with
  | nil => intro p e he; simp [uploadBatches] at he
  | cons c rest ih =>
      intro p e he
      rcases hch : uploadChunk env c with ⟨evs, res⟩
      rcases res with err | items
      · rw [uploadBatches, hch] at he
        simp at he
        exact Or.inl (uploadChunk_events env c e (by rw [hch]; exact he))
      · rcases hrec : uploadBatches env total (p + c.length) rest with ⟨evs2, res2⟩
        have hsplit : e ∈ evs ∨
            e = Event.progressMsg ("Uploaded " ++ toString (p + c.length) ++ "/"
              ++ toString total ++ " blobs...") ∨ e ∈ evs2 := by
          rcases res2 with err2 | items2 <;>
            · rw [uploadBatches, hch, hrec] at he
              simpa using he
        rcases hsplit with hs | hs | hs
        · exact Or.inl (uploadChunk_events env c e (by rw [hch]; exact hs))
        · exact Or.inr ⟨_, hs⟩
        · exact ih (p + c.length) e (by rw [hrec]; exact hs)

/-- When the batched upload loop resolves successfully, every blob-creation
call of its trace succeeded against the environment. -/
theorem uploadBatches_blobs_ok (env : GitHubEnv) (total : Nat) :
    ∀ (cs : List (List FileNode)) (processed : Nat) (items : List TreeItem),
      (uploadBatches env total processed cs).2 = Except.ok items →
      ∀ s, Event.createBlobCall s ∈ (uploadBatches env total processed cs).1 →
        ∃ b, env.createBlob s = Except.ok b := by
  intro cs
  induction cs with
  | nil => intro p items _ s hs; simp [uploadBatches] at hs
  | cons c rest ih =>
      intro p items hok s hs
      rcases hch : uploadChunk env c with ⟨evs, res⟩
      rcases res with err | items1
      · rw [uploadBatches, hch] at hok
        simp at hok
      · rcases hrec : uploadBatches env total (p + c.length) rest with ⟨evs2, res2⟩
        rcases res2 with err2 | items2
        · rw [uploadBatches, hch, hrec] at hok
          simp at hok
        · rw [uploadBatches, hch, hrec] at hs
          simp at hs
          rcases hs with hs | hs
          · exact uploadChunk_blobs_ok env c items1 (by rw [hch]) s (by rw [hch]; exact hs)
          · exact ih (p + c.length) items2 (by rw [hrec]) s (by rw [hrec]; exact hs)

/-- Characterization of one fully successful batch: when no record of the
chunk is skipped and every blob call succeeds with the identifier function
g, the batch produces its blob calls in input order and one tree entry per
record. -/
theorem uploadChunk_ok (env : GitHubEnv) (g : String → String) :
    ∀ chunk : List FileNode,
      (∀ f ∈ chunk, ¬(f.content = "" ∧ 0 < f.size)) →
      (∀ f ∈ chunk, env.createBlob f.content = Except.ok (g f.content)) →
      uploadChunk env chunk =
        (chunk.map (fun f => Event.createBlobCall f.content),
         Except.ok (chunk.map (mkTreeItem g))) := by
  intro chunk
  induction chunk with
  | nil => intro _ _; rfl
  | cons f rest ih =>
      intro hns hok
      have hf := hns f (by simp)
      have hb := hok f (by simp)
      have hrest := ih (fun x hx => hns x (by simp [hx])) (fun x hx => hok x (by simp [hx]))
      simp [uploadChunk, hf, hb, hrest, mkTreeItem]

/-- Characterization of the fully successful upload loop: the trace is the
expected batch trace and the result is one tree entry per record of the
concatenated chunks, in order. -/
theorem uploadBatches_ok (env : GitHubEnv) (g : String → String) (total : Nat) :
    ∀ (cs : List (List FileNode)) (processed : Nat),
      (∀ f ∈ cs.flatten, ¬(f.content = "" ∧ 0 < f.size)) →
      (∀ f ∈ cs.flatten, env.createBlob f.content = Except.ok (g f.content)) →
      uploadBatches env total processed cs =
        (batchTrace total processed cs, Except.ok (cs.flatten.map (mkTreeItem g))) := by
  intro cs
  induction cs with
  | nil => intro _ _ _; rfl
  | cons c rest ih =>
      intro processed hns hok
      have hin : ∀ f ∈ c, f ∈ (c :: rest).flatten := by
        intro f hf
        rw [List.flatten_cons]
        exact List.mem_append.mpr (Or.inl hf)
      have hin2 : ∀ f ∈ rest.flatten, f ∈ (c :: rest).flatten := by
        intro f hf
        rw [List.flatten_cons]
        exact List.mem_append.mpr (Or.inr hf)
      have h1 := uploadChunk_ok env g c (fun f hf => hns f (hin f hf))
        (fun f hf => hok f (hin f hf))
      have h2 := ih (processed + c.length) (fun f hf => hns f (hin2 f hf))
        (fun f hf => hok f (hin2 f hf))
      simp [uploadBatches, h1, h2, batchTrace]

/-- The concatenation of the 5-chunks of a list is the list itself, at any
sufficient fuel. -/
theorem chunks5_flatten_aux :
    ∀ (n : Nat) (l : List FileNode), l.length ≤ n → (chunks5 l).flatten = l := by
  intro n
  induction n with
  | zero =>
      intro l h
      rcases l with _ | ⟨a, t⟩
      · rfl
      · simp at h
  | succ n ih =>
      intro l h
      rcases l with _ | ⟨a, _ | ⟨b, _ | ⟨c, _ | ⟨d, _ | ⟨e, rest⟩⟩⟩⟩⟩
      · rfl
      · rfl
      · rfl
      · rfl
      · rfl
      · have hr : rest.length ≤ n := by
          simp [List.length_cons] at h
          omega
        simp [chunks5, List.flatten_cons, ih rest hr]

/-- The concatenation of the 5-chunks of a list is the list itself. -/
theorem chunks5_flatten (l : List FileNode) : (chunks5 l).flatten = l :=
  chunks5_flatten_aux l.length l (Nat.le_refl _)

/-- Unfolding of the chunking for a list of at least five records. -/
theorem chunks5_take_drop (l : List FileNode) (h : 5 ≤ l.length) :
    chunks5 l = l.take 5 :: chunks5 (l.drop 5) := by
  rcases l with _ | ⟨a, _ | ⟨b, _ | ⟨c, _ | ⟨d, _ | ⟨e, rest⟩⟩⟩⟩⟩
  · simp at h
  · simp at h
  · simp at h
  · simp at h
  · simp at h
  · rfl

/-- Chunking of a short nonempty list: one single chunk. -/
theorem chunks5_small (l : List FileNode) (h0 : l ≠ []) (h : l.length < 5) :
    chunks5 l = [l] := by
  rcases l with _ | ⟨a, _ | ⟨b, _ | ⟨c, _ | ⟨d, _ | ⟨e, rest⟩⟩⟩⟩⟩
  · exact absurd rfl h0
  · rfl
  · rfl
  · rfl
  · rfl
  · exact absurd h (by simp [List.length_cons])

/-- The fully successful upload phase over a plain file list: the trace is
the batch trace of its 5-chunks and the result is one tree entry per input
record, in input order. -/
theorem uploadBatches_files_ok (env : GitHubEnv) (g : String → String)
    (files : List FileNode)
    (hns : ∀ f ∈ files, ¬(f.content = "" ∧ 0 < f.size))
    (hok : ∀ f ∈ files, env.createBlob f.content = Except.ok (g f.content)) :
    uploadBatches env files.length 0 (chunks5 files) =
      (batchTrace files.length 0 (chunks5 files),
       Except.ok (files.map (mkTreeItem g))) := by
  have hj := chunks5_flatten files
  have h := uploadBatches_ok env g files.length (chunks5 files) 0
    (fun f hf => hns f (by rw [← hj]; exact hf))
    (fun f hf => hok f (by rw [← hj]; exact hf))
  rw [h, hj]

/-- Every record of the concatenated chunks contributes a blob-creation
call to the expected batch trace. -/
theorem batchTrace_blob_mem (total : Nat) :
    ∀ (cs : List (List FileNode)) (processed : Nat) (f : FileNode),
      f ∈ cs.flatten → Event.createBlobCall f.content ∈ batchTrace total processed cs := by
  intro cs
  induction cs with
  | nil => intro _ f hf; simp at hf
  | cons c rest ih =>
      intro processed f hf
      rw [List.flatten_cons] at hf
      rw [batchTrace]
      rcases List.mem_append.mp hf with h | h
      · exact List.mem_append.mpr (Or.inl (List.mem_map_of_mem _ h))
      · exact List.mem_append.mpr (Or.inr (List.mem_cons_of_mem _ (ih (processed + c.length) f h)))

/-- Every event of the head-resolution trace is a get-ref call. -/
theorem resolveHead_events (env : GitHubEnv) :
    ∀ e ∈ (resolveHead env).1, ∃ r, e = Event.getRefCall r := by
  intro e he
  unfold resolveHead at he
  rcases hm : env.getRef "heads/main" with e1 | d
  · rcases hms : env.getRef "heads/master" with e2 | d2 <;>
      · rw [hm, hms] at he
        simp at he
        rcases he with he | he <;> exact ⟨_, he⟩
  · rw [hm] at he
    simp at he
    exact ⟨_, he⟩

/-- A trace without tree-creation calls passes the scan. -/
theorem noBlobFromTree_of_no_tree :
    ∀ l : List Event, (∀ e ∈ l, isTreeCall e = false) → noBlobFromTree l = true := by
  intro l
  induction l with
  | nil => intro _; rfl
  | cons e rest ih =>
      intro h
      rw [noBlobFromTree, if_neg (by rw [h e (by simp)]; simp)]
      exact ih (fun x hx => h x (by simp [hx]))

/-- The scan ignores a leading segment without tree-creation calls. -/
theorem noBlobFromTree_append (l1 l2 : List Event)
    (h : ∀ e ∈ l1, isTreeCall e = false) :
    noBlobFromTree (l1 ++ l2) = noBlobFromTree l2 := by
  induction l1 with
  | nil => rfl
  | cons e rest ih =>
      rw [List.cons_append, noBlobFromTree,
        if_neg (by rw [h e (by simp)]; simp)]
      exact ih (fun x hx => h x (by simp [hx]))

/-- No event of the upload pipeline trace that precedes the tree-creation
step is a tree-creation call: get-ref, get-commit, progress and
blob-creation events only. -/
theorem uploadFiles_pre_no_tree (env : GitHubEnv) (files : List FileNode)
    (refData : RefData) :
    ∀ e ∈ (Event.progressMsg "Getting latest commit SHA..." :: (resolveHead env).1
        ++ [Event.progressMsg "Getting base tree...", Event.getCommitCall refData.sha]
        ++ (uploadBatches env files.length 0 (chunks5 files)).1),
      isTreeCall e = false := by
  intro e he
  simp at he
  rcases he with he | he | he | he | he
  · rw [he]; rfl
  · rcases resolveHead_events env e he with ⟨r, hr⟩
    rw [hr]; rfl
  · rw [he]; rfl
  · rw [he]; rfl
  · rcases uploadBatches_events env files.length (chunks5 files) 0 e he with ⟨s, hs⟩ | ⟨m, hm⟩
    · rw [hs]; rfl
    · rw [hm]; rfl

/-- Case analysis of one event of the upload pipeline trace: it is a
get-ref, progress or get-commit event, an event of the batched blob phase,
the tree-creation call (which then carries exactly the successfully
resolved tree entries), the commit-creation call, or the ref-update call. -/
theorem uploadFiles_mem_cases (env : GitHubEnv) (owner repo : String)
    (files : List FileNode) (e : Event)
    (he : e ∈ (uploadFiles env owner repo files).1) :
    (∃ r, e = Event.getRefCall r) ∨ (∃ m, e = Event.progressMsg m) ∨
    (∃ s, e = Event.getCommitCall s) ∨
    e ∈ (uploadBatches env files.length 0 (chunks5 files)).1 ∨
    (∃ bt its, e = Event.createTreeCall bt its ∧
      (uploadBatches env files.length 0 (chunks5 files)).2 = Except.ok its) ∨
    (∃ msg t p, e = Event.createCommitCall msg t p) ∨
    (∃ t s, e = Event.updateRefCall t s) := by
  simp only [uploadFiles] at he
  split at he
  · simp at he
    rcases he with he | he
    · exact Or.inr (Or.inl ⟨_, he⟩)
    · exact Or.inl (resolveHead_events env e he)
  · split at he
    · simp at he
      rcases he with he | he | he | he
      · exact Or.inr (Or.inl ⟨_, he⟩)
      · exact Or.inl (resolveHead_events env e he)
      · exact Or.inr (Or.inl ⟨_, he⟩)
      · exact Or.inr (Or.inr (Or.inl ⟨_, he⟩))
    · split at he
      · simp at he
        rcases he with he | he | he | he | he
        · exact Or.inr (Or.inl ⟨_, he⟩)
        · exact Or.inl (resolveHead_events env e he)
        · exact Or.inr (Or.inl ⟨_, he⟩)
        · exact Or.inr (Or.inr (Or.inl ⟨_, he⟩))
        · exact Or.inr (Or.inr (Or.inr (Or.inl he)))
      · rename_i treeItems heq3
        split at he
        · simp at he
          rcases he with he | he | he | he | he | he | he
          · exact Or.inr (Or.inl ⟨_, he⟩)
          · exact Or.inl (resolveHead_events env e he)
          · exact Or.inr (Or.inl ⟨_, he⟩)
          · exact Or.inr (Or.inr (Or.inl ⟨_, he⟩))
          · exact Or.inr (Or.inr (Or.inr (Or.inl he)))
          · exact Or.inr (Or.inl ⟨_, he⟩)
          · exact Or.inr (Or.inr (Or.inr (Or.inr (Or.inl ⟨_, _, he, heq3⟩))))
        · split at he
          · simp at he
            rcases he with he | he | he | he | he | he | he | he | he
            · exact Or.inr (Or.inl ⟨_, he⟩)
            · exact Or.inl (resolveHead_events env e he)
            · exact Or.inr (Or.inl ⟨_, he⟩)
            · exact Or.inr (Or.inr (Or.inl ⟨_, he⟩))
            · exact Or.inr (Or.inr (Or.inr (Or.inl he)))
            · exact Or.inr (Or.inl ⟨_, he⟩)
            · exact Or.inr (Or.inr (Or.inr (Or.inr (Or.inl ⟨_, _, he, heq3⟩))))
            · exact Or.inr (Or.inl ⟨_, he⟩)
            · exact Or.inr (Or.inr (Or.inr (Or.inr (Or.inr (Or.inl ⟨_, _, _, he⟩)))))
          · split at he <;>
            · simp at he
              rcases he with he | he | he | he | he | he | he | he | he | he | he
              · exact Or.inr (Or.inl ⟨_, he⟩)
              · exact Or.inl (resolveHead_events env e he)
              · exact Or.inr (Or.inl ⟨_, he⟩)
              · exact Or.inr (Or.inr (Or.inl ⟨_, he⟩))
              · exact Or.inr (Or.inr (Or.inr (Or.inl he)))
              · exact Or.inr (Or.inl ⟨_, he⟩)
              · exact Or.inr (Or.inr (Or.inr (Or.inr (Or.inl ⟨_, _, he, heq3⟩))))
              · exact Or.inr (Or.inl ⟨_, he⟩)
              · exact Or.inr (Or.inr (Or.inr (Or.inr (Or.inr (Or.inl ⟨_, _, _, he⟩)))))
              · exact Or.inr (Or.inl ⟨_, he⟩)
              · exact Or.inr (Or.inr (Or.inr (Or.inr (Or.inr (Or.inr ⟨_, _, he⟩)))))

/-- If the tree-creation call appears in the upload pipeline trace, its
entry list is exactly the successfully resolved result of the batched blob
phase. -/
theorem uploadFiles_tree_mem (env : GitHubEnv) (owner repo : String)
    (files : List FileNode) (baseTree : String) (items : List TreeItem)
    (hmem : Event.createTreeCall baseTree items ∈ (uploadFiles env owner repo files).1) :
    (uploadBatches env files.length 0 (chunks5 files)).2 = Except.ok items := by
  rcases uploadFiles_mem_cases env owner repo files _ hmem with
    ⟨r, hr⟩ | ⟨m, hm⟩ | ⟨s, hs⟩ | hmem2 | ⟨bt, its, heq, hok⟩ | ⟨m, t, p, hc⟩ | ⟨t, s, hu⟩
  · simp at hr
  · simp at hm
  · simp at hs
  · rcases uploadBatches_events env files.length (chunks5 files) 0 _ hmem2 with
      ⟨s, hs⟩ | ⟨m, hm⟩
    · simp at hs
    · simp at hm
  · injection heq with h1 h2
    subst h1
    subst h2
    exact hok
  · simp at hc
  · simp at hu

/-- Every blob-creation call of the upload pipeline trace belongs to the
batched blob phase of that pipeline. -/
theorem uploadFiles_blob_mem (env : GitHubEnv) (owner repo : String)
    (files : List FileNode) (s : String)
    (hs : Event.createBlobCall s ∈ (uploadFiles env owner repo files).1) :
    Event.createBlobCall s ∈ (uploadBatches env files.length 0 (chunks5 files)).1 := by
  rcases uploadFiles_mem_cases env owner repo files _ hs with
    ⟨r, hr⟩ | ⟨m, hm⟩ | ⟨c, hc⟩ | hmem2 | ⟨bt, its, heq, hok⟩ | ⟨m, t, p, hc⟩ | ⟨t, c, hu⟩
  · simp at hr
  · simp at hm
  · simp at hc
  · exact hmem2
  · simp at heq
  · simp at hc
  · simp at hu

/-- Shape of the upload pipeline trace: either it contains no
tree-creation call at all, or it splits into a tree-free leading segment,
the single tree-creation call, and a tail free of both tree-creation and
blob-creation calls. -/
theorem uploadFiles_trace_split (env : GitHubEnv) (owner repo : String)
    (files : List FileNode) :
    (∀ e ∈ (uploadFiles env owner repo files).1, isTreeCall e = false) ∨
    (∃ pre bt its tail,
      (uploadFiles env owner repo files).1 = pre ++ Event.createTreeCall bt its :: tail ∧
      (∀ e ∈ pre, isTreeCall e = false) ∧
      (∀ e ∈ tail, isTreeCall e = false ∧ isBlobCall e = false)) := by
  have hb := uploadBatches_events env files.length (chunks5 files) 0
  have hrh := resolveHead_events env
  rcases h1 : (resolveHead env).2 with e1 | refData
  · left
    intro e he
    simp only [uploadFiles, h1] at he
    simp at he
    rcases he with he | he
    · rw [he]; rfl
    · rcases hrh e he with ⟨r, hr⟩; rw [hr]; rfl
  · rcases h2 : env.getCommit refData.sha with e2 | baseTreeSha
    · left
      intro e he
      simp only [uploadFiles, h1, h2] at he
      simp at he
      rcases he with he | he | he | he
      · rw [he]; rfl
      · rcases hrh e he with ⟨r, hr⟩; rw [hr]; rfl
      · rw [he]; rfl
      · rw [he]; rfl
    · rcases h3 : (uploadBatches env files.length 0 (chunks5 files)).2 with e3 | treeItems
      · left
        intro e he
        simp only [uploadFiles, h1, h2, h3] at he
        simp at he
        rcases he with he | he | he | he | he
        · rw [he]; rfl
        · rcases hrh e he with ⟨r, hr⟩; rw [hr]; rfl
        · rw [he]; rfl
        · rw [he]; rfl
        · rcases hb e he with ⟨s, hs⟩ | ⟨m, hm⟩
          · rw [hs]; rfl
          · rw [hm]; rfl
      · have hpre : ∀ e ∈ Event.progressMsg "Getting latest commit SHA..."
            :: (resolveHead env).1
            ++ [Event.progressMsg "Getting base tree...",
                Event.getCommitCall refData.sha]
            ++ (uploadBatches env files.length 0 (chunks5 files)).1
            ++ [Event.progressMsg "Creating new file tree..."],
            isTreeCall e = false := by
          intro e he
          simp at he
          rcases he with he | he | he | he | he | he
          · rw [he]; rfl
          · rcases hrh e he with ⟨r, hr⟩; rw [hr]; rfl
          · rw [he]; rfl
          · rw [he]; rfl
          · rcases hb e he with ⟨s, hs⟩ | ⟨m, hm⟩
            · rw [hs]; rfl
            · rw [hm]; rfl
          · rw [he]; rfl
        right
        rcases h4 : env.createTree baseTreeSha treeItems with e4 | newTreeSha
        · refine ⟨Event.progressMsg "Getting latest commit SHA..."
            :: (resolveHead env).1
            ++ [Event.progressMsg "Getting base tree...",
                Event.getCommitCall refData.sha]
            ++ (uploadBatches env files.length 0 (chunks5 files)).1
            ++ [Event.progressMsg "Creating new file tree..."],
            baseTreeSha, treeItems, [], ?_, hpre, by simp⟩
          simp only [uploadFiles, h1, h2, h3, h4]
          simp
        · rcases h5 : env.createCommit "Deploy from GitZip AI Deployer" newTreeSha
              [refData.sha] with e5 | newCommitSha
          · refine ⟨Event.progressMsg "Getting latest commit SHA..."
              :: (resolveHead env).1
              ++ [Event.progressMsg "Getting base tree...",
                  Event.getCommitCall refData.sha]
              ++ (uploadBatches env files.length 0 (chunks5 files)).1
              ++ [Event.progressMsg "Creating new file tree..."],
              baseTreeSha, treeItems,
              [Event.progressMsg "Creating commit...",
               Event.createCommitCall "Deploy from GitZip AI Deployer" newTreeSha
                 [refData.sha]], ?_, hpre, ?_⟩
            · simp only [uploadFiles, h1, h2, h3, h4, h5]
              simp
            · intro e he
              simp at he
              rcases he with he | he <;> rw [he] <;> exact ⟨rfl, rfl⟩
          · rcases h6 : env.updateRef (replaceFirst refData.ref "refs/" "")
                newCommitSha with e6 | u6 <;>
            · refine ⟨Event.progressMsg "Getting latest commit SHA..."
                :: (resolveHead env).1
                ++ [Event.progressMsg "Getting base tree...",
                    Event.getCommitCall refData.sha]
                ++ (uploadBatches env files.length 0 (chunks5 files)).1
                ++ [Event.progressMsg "Creating new file tree..."],
                baseTreeSha, treeItems,
                Event.progressMsg "Creating commit..."
                :: Event.createCommitCall "Deploy from GitZip AI Deployer" newTreeSha
                     [refData.sha]
                :: Event.progressMsg "Updating repository reference..."
                :: [Event.updateRefCall (replaceFirst refData.ref "refs/" "")
                      newCommitSha], ?_, hpre, ?_⟩
              · simp only [uploadFiles, h1, h2, h3, h4, h5, h6]
                simp
              · intro e he
                simp at he
                rcases he with he | he | he | he <;> rw [he] <;> exact ⟨rfl, rfl⟩

/-- Every event of the expected batch trace is a blob-creation call or a
progress message. -/
theorem batchTrace_events (total : Nat) :
    ∀ (cs : List (List FileNode)) (processed : Nat) (e : Event),
      e ∈ batchTrace total processed cs →
      (∃ s, e = Event.createBlobCall s) ∨ (∃ m, e = Event.progressMsg m) := by
  intro cs
  induction cs with
  | nil => intro _ e he; simp [batchTrace] at he
  | cons c rest ih =>
      intro processed e he
      rw [batchTrace] at he
      rcases List.mem_append.mp he with h | h
      · rcases List.mem_map.mp h with ⟨f, _, hf⟩
        exact Or.inl ⟨f.content, hf.symm⟩
      · rcases List.mem_cons.mp h with h | h
        · exact Or.inr ⟨_, h⟩
        · exact ih (processed + c.length) e h

/-- The upload pipeline trace never contains a blob-creation call at or
after a tree-creation call. -/
theorem uploadFiles_noBlobFromTree (env : GitHubEnv) (owner repo : String)
    (files : List FileNode) :
    noBlobFromTree (uploadFiles env owner repo files).1 = true := by
  rcases uploadFiles_trace_split env owner repo files with
    h | ⟨pre, bt, its, tail, heq, hpre, htail⟩
  · exact noBlobFromTree_of_no_tree _ h
  · rw [heq, noBlobFromTree_append pre _ hpre]
    have hstep : noBlobFromTree (Event.createTreeCall bt its :: tail) =
        tail.all (fun x => !isBlobCall x) := rfl
    rw [hstep, List.all_eq_true]
    intro x hx
    simp [(htail x hx).2]

/-- Claim C3: in every publish attempt the create-tree call is never issued
before the blob uploads: no blob-creation call occurs at or after a
tree-creation call in the trace, and whenever the tree-creation call was
issued, every blob-creation call of the attempt had resolved
successfully - so a failed blob upload means create-tree is never called. -/
theorem tree_called_only_after_blobs (env : GitHubEnv) (owner repo : String)
    (files : List FileNode) :
    noBlobFromTree (uploadFiles env owner repo files).1 = true ∧
    (∀ baseTree items,
      Event.createTreeCall baseTree items ∈ (uploadFiles env owner repo files).1 →
      ∀ s, Event.createBlobCall s ∈ (uploadFiles env owner repo files).1 →
        ∃ b, env.createBlob s = Except.ok b) := by
  refine ⟨uploadFiles_noBlobFromTree env owner repo files, ?_⟩
  intro baseTree items hmem s hs
  exact uploadBatches_blobs_ok env files.length (chunks5 files) 0 items
    (uploadFiles_tree_mem env owner repo files baseTree items hmem) s
    (uploadFiles_blob_mem env owner repo files s hs)

/-- Witness for C3 at a concrete succeeding environment and a concrete
twelve-record list. -/
theorem tree_called_only_after_blobs_witness :
    ∃ b, okEnv.createBlob "x0" = Except.ok b :=
  (tree_called_only_after_blobs okEnv "o" "r" files12).2
    "t0" (files12.map (mkTreeItem gOk)) (by decide) "x0" (by decide)

/-- Counterexample to claim C2 as stated: a record with empty content and
positive size is skipped by the upload phase, so no blob is created for it
and the tree-entry list submitted to create-tree is empty for a one-record
input rather than containing one entry per record. -/
theorem skipped_record_gets_no_entry :
    Event.createTreeCall "t0" [] ∈ (uploadFiles okEnv "o" "r" [ghostFile]).1 ∧
    (uploadFiles okEnv "o" "r" [ghostFile]).1.all (fun e => !isBlobCall e) = true ∧
    ([ghostFile] : List FileNode).length = 1 := by
  decide

/-- Claim C2 (amended): for a record list in which no record has empty
content with positive size, the upload phase creates one blob per record,
and any tree-entry list submitted to create-tree contains exactly one
entry per input record - it is a permutation of the per-record entries,
each carrying the record path, mode 100644, type blob and the blob
identifier returned by the environment, the order within the list being
unspecified; a record with empty content and positive size would instead
be skipped. -/
theorem one_entry_per_record (env : GitHubEnv) (g : String → String)
    (owner repo : String) (files : List FileNode)
    (hns : ∀ f ∈ files, ¬(f.content = "" ∧ 0 < f.size))
    (hok : ∀ f ∈ files, env.createBlob f.content = Except.ok (g f.content)) :
    (∃ items, (uploadBatches env files.length 0 (chunks5 files)).2 =
      Except.ok items ∧ List.Perm items (files.map (mkTreeItem g))) ∧
    (∀ f ∈ files, Event.createBlobCall f.content ∈
      (uploadBatches env files.length 0 (chunks5 files)).1) ∧
    (∀ baseTree items,
      Event.createTreeCall baseTree items ∈ (uploadFiles env owner repo files).1 →
      List.Perm items (files.map (mkTreeItem g))) := by
  have hbf := uploadBatches_files_ok env g files hns hok
  refine ⟨⟨files.map (mkTreeItem g), by rw [hbf], List.Perm.refl _⟩, ?_, ?_⟩
  · intro f hf
    rw [hbf]
    exact batchTrace_blob_mem files.length (chunks5 files) 0 f
      (by rw [chunks5_flatten]; exact hf)
  · intro baseTree items hmem
    have ht := uploadFiles_tree_mem env owner repo files baseTree items hmem
    rw [hbf] at ht
    simp at ht
    rw [← ht]

/-- Witness for the amended C2 at a concrete succeeding environment and a
concrete twelve-record list. -/
theorem one_entry_per_record_witness :
    ∃ items, (uploadBatches okEnv files12.length 0 (chunks5 files12)).2 =
      Except.ok items ∧ List.Perm items (files12.map (mkTreeItem gOk)) :=
  (one_entry_per_record okEnv gOk "o" "r" files12 (by decide) (by decide)).1

/-- Claim C5: for an input list of 12 records the blob phase issues exactly
three batches of sizes 5, 5 and 2, processed strictly in input order, and
emits exactly three upload-progress messages, one after each batch
completes. -/
theorem twelve_files_three_batches (env : GitHubEnv) (g : String → String)
    (files : List FileNode) (h12 : files.length = 12)
    (hns : ∀ f ∈ files, ¬(f.content = "" ∧ 0 < f.size))
    (hok : ∀ f ∈ files, env.createBlob f.content = Except.ok (g f.content)) :
    chunks5 files = [files.take 5, (files.drop 5).take 5, (files.drop 5).drop 5] ∧
    (files.take 5).length = 5 ∧ ((files.drop 5).take 5).length = 5 ∧
    ((files.drop 5).drop 5).length = 2 ∧
    (uploadBatches env files.length 0 (chunks5 files)).1 =
      (files.take 5).map (fun f => Event.createBlobCall f.content)
        ++ Event.progressMsg "Uploaded 5/12 blobs..."
        :: ((files.drop 5).take 5).map (fun f => Event.createBlobCall f.content)
        ++ Event.progressMsg "Uploaded 10/12 blobs..."
        :: ((files.drop 5).drop 5).map (fun f => Event.createBlobCall f.content)
        ++ [Event.progressMsg "Uploaded 12/12 blobs..."] := by
  have l1 : (files.take 5).length = 5 := by simp [List.length_take, h12]
  have ld : (files.drop 5).length = 7 := by simp [List.length_drop, h12]
  have l2 : ((files.drop 5).take 5).length = 5 := by
    simp [List.length_take, List.length_drop, h12]
  have l3 : ((files.drop 5).drop 5).length = 2 := by
    simp [List.length_drop, h12]
  have hne : (files.drop 5).drop 5 ≠ [] := by
    intro hnil
    rw [hnil] at l3
    simp at l3
  have hc : chunks5 files =
      [files.take 5, (files.drop 5).take 5, (files.drop 5).drop 5] := by
    rw [chunks5_take_drop files (by omega),
        chunks5_take_drop (files.drop 5) (by omega),
        chunks5_small ((files.drop 5).drop 5) hne (by omega)]
  have hbf := uploadBatches_files_ok env g files hns hok
  have htr : (uploadBatches env files.length 0 (chunks5 files)).1 =
      batchTrace files.length 0 (chunks5 files) := by
    rw [hbf]
  refine ⟨hc, l1, l2, l3, ?_⟩
  rw [htr, hc, h12]
  simp only [batchTrace]
  rw [l1, l2, l3]
  rw [show ("Uploaded " ++ toString (0 + 5) ++ "/" ++ toString 12 ++ " blobs...") =
        "Uploaded 5/12 blobs..." from by decide,
      show ("Uploaded " ++ toString (0 + 5 + 5) ++ "/" ++ toString 12 ++ " blobs...") =
        "Uploaded 10/12 blobs..." from by decide,
      show ("Uploaded " ++ toString (0 + 5 + 5 + 2) ++ "/" ++ toString 12 ++ " blobs...") =
        "Uploaded 12/12 blobs..." from by decide]
  simp

/-- Witness for C5 at a concrete succeeding environment and a concrete
twelve-record list. -/
theorem twelve_files_three_batches_witness :
    chunks5 files12 =
      [files12.take 5, (files12.drop 5).take 5, (files12.drop 5).drop 5] :=
  (twelve_files_three_batches okEnv gOk files12 (by decide) (by decide) (by decide)).1

/-- Claim C6: when heads/main does not resolve but heads/master does, the
publish proceeds to success and the one ref-update call of the pipeline
targets the master branch reference, pointing it at the newly created
commit. -/
theorem master_fallback_updates_master (env : GitHubEnv) (g : String → String)
    (owner repo : String) (files : List FileNode) (refData : RefData)
    (emain bts nts ncs : String)
    (hmain : env.getRef "heads/main" = Except.error emain)
    (hmaster : env.getRef "heads/master" = Except.ok refData)
    (href : refData.ref = "refs/heads/master")
    (hns : ∀ f ∈ files, ¬(f.content = "" ∧ 0 < f.size))
    (hok : ∀ f ∈ files, env.createBlob f.content = Except.ok (g f.content))
    (hcommit : env.getCommit refData.sha = Except.ok bts)
    (htree : env.createTree bts (files.map (mkTreeItem g)) = Except.ok nts)
    (hcmt : env.createCommit "Deploy from GitZip AI Deployer" nts [refData.sha] =
      Except.ok ncs)
    (hupd : env.updateRef "heads/master" ncs = Except.ok ()) :
    (uploadFiles env owner repo files).2 =
      Except.ok ("https://github.com/" ++ owner ++ "/" ++ repo) ∧
    Event.updateRefCall "heads/master" ncs ∈ (uploadFiles env owner repo files).1 ∧
    (∀ t s, Event.updateRefCall t s ∈ (uploadFiles env owner repo files).1 →
      t = "heads/master" ∧ s = ncs) := by
  have hres : resolveHead env =
      ([Event.getRefCall "heads/main", Event.getRefCall "heads/master"],
       Except.ok refData) := by
    unfold resolveHead
    rw [hmain, hmaster]
  have hbf := uploadBatches_files_ok env g files hns hok
  have hrepl : replaceFirst refData.ref "refs/" "" = "heads/master" := by
    rw [href]
    decide
  refine ⟨?_, ?_, ?_⟩
  · simp only [uploadFiles, hres, hcommit, hbf, htree, hcmt, hrepl, hupd]
  · simp only [uploadFiles, hres, hcommit, hbf, htree, hcmt, hrepl, hupd]
    simp
  · intro t s hmem
    simp only [uploadFiles, hres, hcommit, hbf, htree, hcmt, hrepl, hupd] at hmem
    simp at hmem
    rcases hmem with hmem | hmem
    · rcases batchTrace_events files.length (chunks5 files) 0 _ hmem with
        ⟨c, hc⟩ | ⟨m, hm⟩
      · simp at hc
      · simp at hm
    · exact hmem

/-- Witness for C6 at a concrete environment where heads/main fails and
heads/master resolves. -/
theorem master_fallback_updates_master_witness :
    (uploadFiles fallbackEnv "o" "r" []).2 =
      Except.ok ("https://github.com/" ++ "o" ++ "/" ++ "r") ∧
    Event.updateRefCall "heads/master" "c1" ∈ (uploadFiles fallbackEnv "o" "r" []).1 :=
  ⟨(master_fallback_updates_master fallbackEnv gOk "o" "r" []
      { ref := "refs/heads/master", sha := "c0" } "Not Found" "t0" "t1" "c1"
      (by decide) (by decide) (by decide) (by decide) (by decide) (by decide)
      (by decide) (by decide) (by decide)).1,
   (master_fallback_updates_master fallbackEnv gOk "o" "r" []
      { ref := "refs/heads/master", sha := "c0" } "Not Found" "t0" "t1" "c1"
      (by decide) (by decide) (by decide) (by decide) (by decide) (by decide)
      (by decide) (by decide) (by decide)).2.1⟩

/-- Claim C1: when the existence check reports the repository as already
present, the deployment terminates with the name-collision error, stores no
url, stays on DEPLOY, and its trace contains no repository-creation, blob,
tree, commit or ref-update call. -/
theorem collision_aborts_before_mutation (env : GitHubEnv) (user : UserProfile)
    (config : RepoConfig) (files : List FileNode)
    (h : env.reposGet user.login config.name = Except.ok ()) :
    (handleDeploy env user config files).error =
      some ("Repository \"" ++ config.name ++ "\" already exists!") ∧
    (handleDeploy env user config files).deployUrl = none ∧
    (handleDeploy env user config files).step = Step.DEPLOY ∧
    (handleDeploy env user config files).trace.all (fun e => !isMutation e) = true := by
  have hc : checkRepoExists env user.login config.name =
      ([Event.reposGet user.login config.name], Except.ok true) := by
    unfold checkRepoExists
    rw [h]
  simp [handleDeploy, hc, isMutation]

/-- Witness for C1 at a concrete environment whose existence check reports
the repository as present. -/
theorem collision_aborts_before_mutation_witness :
    (handleDeploy existsEnv userU cfgReadme []).error =
      some ("Repository \"" ++ cfgReadme.name ++ "\" already exists!") ∧
    (handleDeploy existsEnv userU cfgReadme []).deployUrl = none ∧
    (handleDeploy existsEnv userU cfgReadme []).step = Step.DEPLOY ∧
    (handleDeploy existsEnv userU cfgReadme []).trace.all (fun e => !isMutation e) = true :=
  collision_aborts_before_mutation existsEnv userU cfgReadme [] (by decide)

end GitZip
